import Mathlib

/-!
# Verification of the garden task-engine specification against the source

Shallow embedding of the parts of the `garden` code base that the claims
touch: the `BuildTask` class (`src/garden-service/src/tasks/build.ts`),
`resolveModuleConfig` (`src/garden-service/src/resolve-module.ts`), the
`KeyedSet` utility (`src/core/src/util/keyed-set.ts`), and — modelled from
the specification, since its implementation file is not part of the
source tree here — the runtime-context assembler `prepareRuntimeContext`.

External collaborators (the action router, the config graph, the build
directory, path utilities, schema validators) are modelled as explicit
environment records: the embedded functions are parametric in them, and
side effects are made visible as an explicit trace of events.
-/

namespace Garden

/-- A `copy` entry on a build dependency (`BuildCopySpec` in the source):
which files of the dependency's build output to copy, and where. -/
structure CopySpec where
  source : String
  target : String
deriving Repr, DecidableEq

/-- A normalized build-dependency entry: `{ name, copy }`. -/
structure BuildDependencyConfig where
  name : String
  copy : List CopySpec
deriving Repr, DecidableEq

/-- The `build` section of a module, as used by `getBuildTasks`
(`module.build.dependencies`). -/
structure ModuleBuildConfig where
  dependencies : List BuildDependencyConfig
deriving Repr, DecidableEq

/-- A module version: `{ versionString, files }`
(`src/garden-service/src/tasks/build.ts` uses `version.versionString` and
`version.files`). -/
structure ModuleVersion where
  versionString : String
  files : List String
deriving Repr, DecidableEq

/-- The fields of a resolved `Module` that the build task reads: name,
optional plugin qualifier, module type, build config and version. -/
structure Module where
  name : String
  plugin : Option String := none
  type : String
  build : ModuleBuildConfig
  version : ModuleVersion
deriving Repr, DecidableEq

/-- Modelled from the spec: module names are key-qualified — "a module
loaded from an external plugin is namespaced by plugin". The helper
`getModuleKey(name, plugin)` of `src/types/module` (not part of this
source tree) prefixes the plugin name when present. -/
def getModuleKey (name : String) (plugin : Option String) : String :=
  match plugin with
  | some p => p ++ "--" ++ name
  | none => name

/-- Build status returned by the backend's status probe
(`actions.getBuildStatus`): `{ ready: bool }`. -/
structure BuildStatus where
  ready : Bool
deriving Repr, DecidableEq

/-- Result of a build task (`BuildResult` of
`src/types/plugin/module/build`): `fresh` plus a backend-specific
payload. -/
structure BuildResult where
  fresh : Bool
  buildLog : Option String := none
deriving Repr, DecidableEq

/-- An opaque error raised by a backend action. -/
structure BackendError where
  message : String
deriving Repr, DecidableEq

/-- One observable step of `BuildTask.process`, in order of occurrence:
build-directory filesystem operations, action-router calls, and log
status updates. -/
inductive ProcessEvent where
  /-- `garden.buildDir.syncFromSrc(module, log)` -/
  | syncFromSrc (moduleName : String)
  /-- `garden.buildDir.syncDependencyProducts(module, graph, log)` -/
  | syncDependencyProducts (moduleName : String)
  /-- `actions.getBuildStatus({ log, module })` -/
  | getBuildStatus (moduleName : String)
  /-- `actions.build({ module, log })` -/
  | build (moduleName : String)
  /-- `log.setError()` (the task's execution is marked failed) -/
  | logSetError
  /-- `log.setSuccess(...)` via `logSuccess()` -/
  | logSuccess
deriving Repr, DecidableEq

/-- Is the event a call on the action router (the backend boundary)? -/
def ProcessEvent.isActionRouterCall : ProcessEvent → Bool
  | .getBuildStatus _ => true
  | .build _ => true
  | _ => false

/-- Is the event the backend build execution action? -/
def ProcessEvent.isBuildAction : ProcessEvent → Bool
  | .build _ => true
  | _ => false

/-- Is the event a build-directory (filesystem) operation? -/
def ProcessEvent.isBuildDirOp : ProcessEvent → Bool
  | .syncFromSrc _ => true
  | .syncDependencyProducts _ => true
  | _ => false

/-- The backend boundary consumed by `BuildTask.process` and
`getBuildTasks`: the action router's build-status probe, its build
execution action (which may raise), and whether a build handler is
registered for a module type (`getModuleActionHandler` succeeding vs
throwing). -/
structure ActionRouter where
  buildStatus : Module → BuildStatus
  buildAction : Module → Except BackendError BuildResult
  hasBuildHandler : String → Bool

/-- The config-graph query used by `BuildTask.getDependencies`:
`(await dg.getDependencies("build", name, false)).build`, keyed by the
task's name. -/
structure ConfigGraph where
  buildDependencies : String → List Module

/-- The state of a `BuildTask` instance
(`src/garden-service/src/tasks/build.ts`): the module, the `force`
flag, and the watch parameters forwarded to dependency tasks. The
version is `module.version` (set in the constructor). -/
structure BuildTask where
  module : Module
  force : Bool
  fromWatch : Bool := false
  hotReloadServiceNames : List String := []
deriving Repr, DecidableEq

namespace BuildTask

/-- `BuildTask.getName()`: `getModuleKey(this.module.name, this.module.plugin)`. -/
def getName (t : BuildTask) : String :=
  getModuleKey t.module.name t.module.plugin

/-- The task's version, as set by the constructor (`version: module.version`). -/
def version (t : BuildTask) : ModuleVersion :=
  t.module.version

/-- `BuildTask.getDependencies()`: queries the config graph for the
module's direct build dependencies and wraps each in a new `BuildTask`,
forwarding `force`, `fromWatch` and `hotReloadServiceNames` from the
parent task. -/
def getDependencies (t : BuildTask) (dg : ConfigGraph) : List BuildTask :=
  (dg.buildDependencies t.getName).map fun m =>
    { module := m
      force := t.force
      fromWatch := t.fromWatch
      hotReloadServiceNames := t.hotReloadServiceNames }

/-- The tail of `BuildTask.process` from the `actions.build` call on:
invokes the build action; on error marks the log failed and re-raises,
on success logs success and returns the result. -/
def runBuildAction (t : BuildTask) (actions : ActionRouter) (ev : List ProcessEvent) :
    Except BackendError BuildResult × List ProcessEvent :=
  match actions.buildAction t.module with
  | .error e => (.error e, ev ++ [.build t.module.name, .logSetError])
  | .ok r => (.ok r, ev ++ [.build t.module.name, .logSuccess])

/-- `BuildTask.process()`: syncs module sources and dependency products
into the build directory, then — unless `force` — asks the backend for
build status and returns `{ fresh: false }` when `status.ready`;
otherwise invokes the backend build action. Returns the result (or the
propagated error) together with the trace of observable events in
order. -/
def process (t : BuildTask) (actions : ActionRouter) :
    Except BackendError BuildResult × List ProcessEvent :=
  let ev0 : List ProcessEvent :=
    [.syncFromSrc t.module.name, .syncDependencyProducts t.module.name]
  if t.force then
    runBuildAction t actions ev0
  else
    let status := actions.buildStatus t.module
    let ev1 := ev0 ++ [ProcessEvent.getBuildStatus t.module.name]
    if status.ready then
      (.ok { fresh := false }, ev1 ++ [.logSuccess])
    else
      runBuildAction t actions ev1

end BuildTask

/-- The parameters of `getBuildTasks` (a `BuildTaskParams`, minus the
ambient `garden`/`log` handles which are modelled by the explicit
`ActionRouter`/`ConfigGraph` arguments). -/
structure BuildTaskParams where
  module : Module
  force : Bool
  fromWatch : Bool := false
  hotReloadServiceNames : List String := []
deriving Repr, DecidableEq

/-- The `BuildTask` constructed from the given params. -/
def BuildTaskParams.toTask (p : BuildTaskParams) : BuildTask :=
  { module := p.module
    force := p.force
    fromWatch := p.fromWatch
    hotReloadServiceNames := p.hotReloadServiceNames }

/-- `getBuildTasks(params)`: a build step is needed if some build
dependency has a non-empty `copy` list, or if the backend registers a
build handler for the module's type. If so, the module's own build task
is returned; otherwise the build tasks of its dependencies are returned
in its place. -/
def getBuildTasks (actions : ActionRouter) (dg : ConfigGraph) (params : BuildTaskParams) :
    List BuildTask :=
  let needsBuild :=
    params.module.build.dependencies.any (fun d => d.copy.length > 0)
      || actions.hasBuildHandler params.module.type
  let buildTask := params.toTask
  if needsBuild then [buildTask] else buildTask.getDependencies dg

/-! ## `resolveModuleConfig` (`src/garden-service/src/resolve-module.ts`) -/

/-- A build-dependency entry as it may appear in raw configuration:
either the bare-name shorthand (`- foo-module`) or the object form
(`- name: foo-module`). -/
inductive BuildDependencySpec where
  | nameOnly (name : String)
  | full (dep : BuildDependencyConfig)
deriving Repr, DecidableEq

/-- The shorthand normalization applied by `resolveModuleConfig`:
`typeof dep === "string" ? \x7b name: dep, copy: [] \x7d : dep`. -/
def normalizeBuildDependency : BuildDependencySpec → BuildDependencySpec
  | .nameOnly n => .full { name := n, copy := [] }
  | .full d => .full d

/-- The `build` section of a raw module config (entries not yet
normalized). -/
structure RawBuildConfig where
  dependencies : List BuildDependencySpec
deriving Repr, DecidableEq

/-- A named sub-config (service/task/test), as far as
`resolveModuleConfig` touches it (the plugin key-qualification loop). -/
structure NamedConfig where
  name : String
deriving Repr, DecidableEq

/-- An opaque configuration payload (the module-type specific `spec` and
the `outputs` mapping); `resolveModuleConfig` only passes these through
validators. -/
structure ConfigPayload where
  raw : String
deriving Repr, DecidableEq

/-- The fields of a `ModuleConfig` that `resolveModuleConfig` reads or
writes. -/
structure ModuleConfig where
  name : String
  type : String
  path : String
  configPath : Option String := none
  plugin : Option String := none
  repositoryUrl : Option String := none
  spec : ConfigPayload := { raw := "" }
  outputs : ConfigPayload := { raw := "" }
  build : RawBuildConfig
  serviceConfigs : List NamedConfig := []
  taskConfigs : List NamedConfig := []
  testConfigs : List NamedConfig := []
deriving Repr, DecidableEq

/-- The error kinds of `src/exceptions.ts` that `resolveModuleConfig`
can raise. -/
inductive GardenError where
  | configurationError (message : String)
  | pluginError (message : String)
deriving Repr, DecidableEq

/-- A module-type definition as `resolveModuleConfig` consumes it:
its name and whether a `schema` / `moduleOutputsSchema` is present
(the schemas themselves are opaque; validation against them is a
collaborator in `ResolveEnv`). -/
structure ModuleTypeDescription where
  name : String
  hasSchema : Bool
  hasModuleOutputsSchema : Bool
deriving Repr, DecidableEq

/-- The collaborators of `resolveModuleConfig`: template-string
resolution, the registered module-type definitions, `validateWithPath`
against the various schemas, external-source loading, the plugin
`configure` handler and the module-type base chain. -/
structure ResolveEnv where
  projectRoot : String
  /-- `path.relative(projectRoot, p)` -/
  relative : String → String → String
  /-- `resolveTemplateStrings(cloneDeep(config), opts.configContext, opts)` -/
  resolveTemplateStrings : ModuleConfig → ModuleConfig
  /-- `garden.getModuleTypeDefinitions()`, indexed by type name -/
  moduleTypeDefinitions : String → Option ModuleTypeDescription
  /-- `validateWithPath` of `config.spec` against `description.schema` -/
  validateSpec : ModuleTypeDescription → ModuleConfig → Except GardenError ConfigPayload
  /-- `validateWithPath` of the whole config against `moduleConfigSchema` -/
  validateModuleConfig : ModuleConfig → Except GardenError ModuleConfig
  /-- `garden.loadExtSourcePath(\x7b name, repositoryUrl, sourceType \x7d)` -/
  loadExtSourcePath : String → String → String
  /-- `actions.configureModule(...)`, returning the handler's `moduleConfig` -/
  configureModule : ModuleConfig → Except GardenError ModuleConfig
  /-- `validateWithPath` of `config.outputs` against `description.moduleOutputsSchema` -/
  validateOutputs : ModuleTypeDescription → ModuleConfig → Except GardenError ConfigPayload
  /-- `getModuleTypeBases(description, moduleTypeDefinitions)` -/
  getModuleTypeBases : ModuleTypeDescription → List ModuleTypeDescription
  /-- `validateWithPath` of `config.spec` against a base schema -/
  validateSpecAgainstBase : ModuleTypeDescription → ModuleConfig → Except GardenError ConfigPayload
  /-- `validateWithPath` of `config.outputs` against a base outputs schema -/
  validateOutputsAgainstBase : ModuleTypeDescription → ModuleConfig → Except GardenError ConfigPayload

/-- The `deline`d message of the unknown-module-type error. -/
def unknownTypeMessage (type configPath : String) : String :=
  "Unrecognized module type \x27" ++ type ++ "\x27 (defined at " ++ configPath ++
    "). Are you missing a provider configuration?"

/-- One iteration of the module-type base validation loop at the end of
`resolveModuleConfig`: validate `spec` against the base schema and
`outputs` against the base outputs schema, when present. -/
def validateAgainstBase (env : ResolveEnv) (c : ModuleConfig) (base : ModuleTypeDescription) :
    Except GardenError ModuleConfig :=
  (if base.hasSchema then
      (env.validateSpecAgainstBase base c).map fun s => { c with spec := s }
    else pure c) >>= fun c =>
  if base.hasModuleOutputsSchema then
    (env.validateOutputsAgainstBase base c).map fun o => { c with outputs := o }
  else pure c

/-- The plugin key-qualification at the end of `resolveModuleConfig`:
`config.name = getModuleKey(config.name, config.plugin)`, and when a
plugin is set, the service/task/test config names likewise. -/
def qualifyNames (c : ModuleConfig) : ModuleConfig :=
  let c := { c with name := getModuleKey c.name c.plugin }
  match c.plugin with
  | some p =>
    { c with
      serviceConfigs := c.serviceConfigs.map fun sc => { sc with name := getModuleKey sc.name (some p) }
      taskConfigs := c.taskConfigs.map fun tc => { tc with name := getModuleKey tc.name (some p) }
      testConfigs := c.testConfigs.map fun tc => { tc with name := getModuleKey tc.name (some p) } }
  | none => c

/-- The module-type specific spec validation
(`if (description.schema) config.spec = validateWithPath(...)`). -/
def validateSpecStage (env : ResolveEnv) (description : ModuleTypeDescription)
    (c : ModuleConfig) : Except GardenError ModuleConfig :=
  if description.hasSchema then
    (env.validateSpec description c).map fun s => { c with spec := s }
  else pure c

/-- The build-dependency shorthand normalization. -/
def normalizeDepsStage (c : ModuleConfig) : ModuleConfig :=
  { c with build := { dependencies := c.build.dependencies.map normalizeBuildDependency } }

/-- The external-source step: when `repositoryUrl` is set, the module
path is replaced by the loaded external source path. -/
def extSourceStage (env : ResolveEnv) (c : ModuleConfig) : ModuleConfig :=
  match c.repositoryUrl with
  | some url => { c with path := env.loadExtSourcePath c.name url }
  | none => c

/-- The module-outputs validation
(`if (description.moduleOutputsSchema) config.outputs = validateWithPath(...)`). -/
def validateOutputsStage (env : ResolveEnv) (description : ModuleTypeDescription)
    (c : ModuleConfig) : Except GardenError ModuleConfig :=
  if description.hasModuleOutputsSchema then
    (env.validateOutputs description c).map fun o => { c with outputs := o }
  else pure c

/-- `getModuleTypeBases(moduleTypeDefinitions[config.type], ...)`: the
base chain of the config's (current) type, empty when the type is not
registered. -/
def basesOf (env : ResolveEnv) (c : ModuleConfig) : List ModuleTypeDescription :=
  match env.moduleTypeDefinitions c.type with
  | some d => env.getModuleTypeBases d
  | none => []

/-- The body of `resolveModuleConfig` once the module-type definition
has been found: validates the type-specific spec, normalizes
build-dependency shorthand entries, validates the base config schema,
loads external sources, runs the plugin `configure` handler, validates
outputs and the module-type bases, and key-qualifies names. -/
def resolveWithDescription (env : ResolveEnv) (description : ModuleTypeDescription)
    (config : ModuleConfig) : Except GardenError ModuleConfig :=
  validateSpecStage env description config >>= fun config =>
  env.validateModuleConfig (normalizeDepsStage config) >>= fun config =>
  env.configureModule (extSourceStage env config) >>= fun config =>
  validateOutputsStage env description config >>= fun config =>
  (basesOf env config).foldlM (validateAgainstBase env) config >>= fun config =>
  pure (qualifyNames config)

/-- `resolveModuleConfig` after template-string resolution: rejects an
unknown module type with a `ConfigurationError` naming the config path,
then runs the resolution pipeline. -/
def resolveResolved (env : ResolveEnv) (config : ModuleConfig) :
    Except GardenError ModuleConfig :=
  match env.moduleTypeDefinitions config.type with
  | none =>
    throw (GardenError.configurationError
      (unknownTypeMessage config.type
        (env.relative env.projectRoot (config.configPath.getD config.path))))
  | some description => resolveWithDescription env description config

/-- `resolveModuleConfig(garden, config, opts)`: resolves template
strings and runs the pipeline above. -/
def resolveModuleConfig (env : ResolveEnv) (config0 : ModuleConfig) :
    Except GardenError ModuleConfig :=
  resolveResolved env (env.resolveTemplateStrings config0)

/-! ## `KeyedSet` (`src/core/src/util/keyed-set.ts`) -/

/-- A set deduplicated by a key function, backed by a JS `Map` from keys
to members. The `Map` is modelled as an insertion-ordered association
list with unique keys. -/
structure KeyedSet (V : Type) where
  keyFn : V → String
  map : List (String × V)

namespace KeyedSet

variable {V : Type}

/-- JS `Map.prototype.set`: when the key is present, replace its value
in place (the key keeps its original insertion position); otherwise
append a new entry. -/
def mapSet (m : List (String × V)) (k : String) (v : V) : List (String × V) :=
  if m.any (fun p => p.1 == k) then
    m.map (fun p => if p.1 == k then (k, v) else p)
  else m ++ [(k, v)]

/-- `add(entry)`: `this.map.set(this.keyFn(entry), entry)`. -/
def add (s : KeyedSet V) (v : V) : KeyedSet V :=
  { s with map := mapSet s.map (s.keyFn v) v }

/-- `delete(entry)`: `this.map.delete(this.keyFn(entry))` — the set
without the entry's key, and whether the key was present. -/
def delete (s : KeyedSet V) (v : V) : KeyedSet V × Bool :=
  ({ s with map := s.map.filter (fun p => !(p.1 == s.keyFn v)) },
    s.map.any (fun p => p.1 == s.keyFn v))

/-- `has(entry)`: `this.map.has(this.keyFn(entry))`. -/
def has (s : KeyedSet V) (v : V) : Bool :=
  s.map.any (fun p => p.1 == s.keyFn v)

/-- `hasKey(key)`: `this.map.has(key)`. -/
def hasKey (s : KeyedSet V) (k : String) : Bool :=
  s.map.any (fun p => p.1 == k)

/-- `entries()`: set members in insertion order
(`Array.from(this.map.values())`). -/
def entries (s : KeyedSet V) : List V :=
  s.map.map Prod.snd

/-- `size()`: `this.map.size`. -/
def size (s : KeyedSet V) : Nat :=
  s.map.length

/-- `clear()`: `this.map = new Map()`. -/
def clear (s : KeyedSet V) : KeyedSet V :=
  { s with map := [] }

/-- The representation invariant of the backing `Map`: keys are unique
(JS `Map` semantics), and every stored entry sits under the key its
member maps to (every entry was stored via `add`). -/
def WellFormed (s : KeyedSet V) : Prop :=
  (s.map.map Prod.fst).Nodup ∧ ∀ p ∈ s.map, p.1 = s.keyFn p.2

/-- At most one member per key: the claim-level reading of
deduplication. -/
def atMostOnePerKey (s : KeyedSet V) : Prop :=
  ∀ k : String, (s.entries.filter (fun v => s.keyFn v == k)).length ≤ 1

end KeyedSet

/-! ## JSON values, `JSON.stringify` and `JSON.parse`

Modelled from the spec: the runtime-context contract (§4.5) serializes
the dependency list to JSON and requires the deserialized value to
equal it exactly. The payloads involved are strings, arrays and
string-keyed objects. -/

/-- A JSON value of the shapes the runtime context serializes. -/
inductive Json where
  | str (s : String)
  | arr (elems : List Json)
  | obj (fields : List (String × Json))

/-- Lower-case hexadecimal digit for `n < 16`. -/
def hexDigitChar (n : Nat) : Char :=
  if n < 10 then Char.ofNat (48 + n) else Char.ofNat (87 + n)

/-- `JSON.stringify` escaping of one character inside a string literal:
quote and backslash are backslash-escaped, the control characters with
short escapes use them, the remaining control characters become
`\u00XX`, and everything else is emitted verbatim. -/
def escapeChar (c : Char) : List Char :=
  if c = '"' then ['\\', '"']
  else if c = '\\' then ['\\', '\\']
  else if c = Char.ofNat 8 then ['\\', 'b']
  else if c = Char.ofNat 9 then ['\\', 't']
  else if c = Char.ofNat 10 then ['\\', 'n']
  else if c = Char.ofNat 12 then ['\\', 'f']
  else if c = Char.ofNat 13 then ['\\', 'r']
  else if c.toNat < 32 then
    ['\\', 'u', '0', '0', hexDigitChar (c.toNat / 16), hexDigitChar (c.toNat % 16)]
  else [c]

/-- Escape every character of a string body. -/
def escapeString (s : List Char) : List Char :=
  s.flatMap escapeChar

/-- Serialize a JSON string literal: quote, escaped body, quote. -/
def strLit (s : List Char) : List Char :=
  '"' :: (escapeString s ++ ['"'])

mutual

/-- `JSON.stringify` of a JSON value (no whitespace). -/
def stringifyVal : Json → List Char
  | .str s => strLit s.data
  | .arr xs => '[' :: (stringifyElems xs ++ [']'])
  | .obj fs => '\x7b' :: (stringifyFields fs ++ ['\x7d'])

/-- Comma-separated serialization of array elements. -/
def stringifyElems : List Json → List Char
  | [] => []
  | [x] => stringifyVal x
  | x :: y :: xs => stringifyVal x ++ ',' :: stringifyElems (y :: xs)

/-- Comma-separated serialization of object fields (`"key":value`). -/
def stringifyFields : List (String × Json) → List Char
  | [] => []
  | [(k, v)] => strLit k.data ++ ':' :: stringifyVal v
  | (k, v) :: f :: fs => strLit k.data ++ ':' :: stringifyVal v ++ ',' :: stringifyFields (f :: fs)

end

/-- Decode one hexadecimal digit. -/
def hexVal (c : Char) : Option Nat :=
  if 48 ≤ c.toNat ∧ c.toNat ≤ 57 then some (c.toNat - 48)
  else if 97 ≤ c.toNat ∧ c.toNat ≤ 102 then some (c.toNat - 87)
  else if 65 ≤ c.toNat ∧ c.toNat ≤ 70 then some (c.toNat - 55)
  else none

/-- Decode a single-character escape (`\"`, `\\`, `\/`, `\b`, `\t`,
`\n`, `\f`, `\r`). -/
def unescapeChar (c : Char) : Option Char :=
  if c = '"' then some '"'
  else if c = '\\' then some '\\'
  else if c = '/' then some '/'
  else if c = 'b' then some (Char.ofNat 8)
  else if c = 't' then some (Char.ofNat 9)
  else if c = 'n' then some (Char.ofNat 10)
  else if c = 'f' then some (Char.ofNat 12)
  else if c = 'r' then some (Char.ofNat 13)
  else none

/-- Parse the body of a JSON string literal, after the opening quote:
the decoded characters and the rest of the input after the closing
quote. -/
def parseStringBody : List Char → Option (List Char × List Char)
  | [] => none
  | '"' :: rest => some ([], rest)
  | '\\' :: 'u' :: a :: b :: c2 :: d :: rest => do
    let va ← hexVal a
    let vb ← hexVal b
    let vc ← hexVal c2
    let vd ← hexVal d
    let (s, r) ← parseStringBody rest
    some (Char.ofNat (((va * 16 + vb) * 16 + vc) * 16 + vd) :: s, r)
  | '\\' :: e :: rest => do
    let ch ← unescapeChar e
    let (s, r) ← parseStringBody rest
    some (ch :: s, r)
  | ['\\'] => none
  | c :: rest => do
    let (s, r) ← parseStringBody rest
    some (c :: s, r)

mutual

/-- Parse one JSON value (fuel-bounded recursive-descent): a string
literal, an array or an object, dispatched on the first character. -/
def parseVal : Nat → List Char → Option (Json × List Char)
  | 0, _ => none
  | _ + 1, [] => none
  | fuel + 1, c :: l =>
    if c = '"' then (parseStringBody l).map fun sr => (Json.str (String.mk sr.1), sr.2)
    else if c = '[' then (parseElems fuel l).map fun er => (Json.arr er.1, er.2)
    else if c = '\x7b' then (parseFields fuel l).map fun fr => (Json.obj fr.1, fr.2)
    else none

/-- Parse the elements of an array after the opening bracket, up to and
including the closing bracket. -/
def parseElems : Nat → List Char → Option (List Json × List Char)
  | 0, _ => none
  | _ + 1, [] => none
  | fuel + 1, c :: l =>
    if c = ']' then some ([], l)
    else
      (parseVal fuel (c :: l)).bind fun vr =>
        match vr.2 with
        | ',' :: r2 => (parseElems fuel r2).bind fun er => some (vr.1 :: er.1, er.2)
        | ']' :: r2 => some ([vr.1], r2)
        | _ => none

/-- Parse the fields of an object after the opening brace, up to and
including the closing brace. -/
def parseFields : Nat → List Char → Option (List (String × Json) × List Char)
  | 0, _ => none
  | _ + 1, [] => none
  | fuel + 1, c :: l =>
    if c = '\x7d' then some ([], l)
    else if c = '"' then
      (parseStringBody l).bind fun kr =>
        match kr.2 with
        | ':' :: r2 =>
          (parseVal fuel r2).bind fun vr =>
            match vr.2 with
            | ',' :: r4 =>
              (parseFields fuel r4).bind fun fr =>
                some ((String.mk kr.1, vr.1) :: fr.1, fr.2)
            | '\x7d' :: r4 => some ([(String.mk kr.1, vr.1)], r4)
            | _ => none
        | _ => none
    else none

end

/-- `JSON.parse` (restricted to the value shapes above): parse one value
consuming the whole input. -/
def parseJson (s : String) : Option Json :=
  match parseVal (s.length + 1) s.data with
  | some (j, []) => some j
  | _ => none

/-! ## Runtime context assembler (modelled from the spec) -/

/-- Modelled from the spec: the per-dependency result bundle
`\x7bmoduleName, name, outputs, type, version\x7d` making up the
`dependencies` sequence of a runtime context (§3, §4.5). -/
structure RuntimeDependency where
  moduleName : String
  name : String
  outputs : List (String × String)
  type : String
  version : String
deriving Repr, DecidableEq

/-- The JSON value of one dependency bundle (field order as listed in
the spec). -/
def RuntimeDependency.toJson (d : RuntimeDependency) : Json :=
  .obj
    [("moduleName", .str d.moduleName),
     ("name", .str d.name),
     ("outputs", .obj (d.outputs.map fun kv => (kv.1, Json.str kv.2))),
     ("type", .str d.type),
     ("version", .str d.version)]

/-- The JSON value of the whole dependency list. -/
def dependenciesJson (deps : List RuntimeDependency) : Json :=
  .arr (deps.map RuntimeDependency.toJson)

/-- Read a JSON string value back. -/
def Json.asString : Json → Option String
  | .str s => some s
  | _ => none

/-- Read a string-to-string JSON object back. -/
def Json.asStringPairs : Json → Option (List (String × String))
  | .obj fs => fs.mapM fun kv => (kv.2.asString).map fun s => (kv.1, s)
  | _ => none

/-- Decode one dependency bundle from its JSON value. -/
def decodeDependency : Json → Option RuntimeDependency
  | .obj [("moduleName", m), ("name", n), ("outputs", o), ("type", t), ("version", v)] => do
    let m ← m.asString
    let n ← n.asString
    let o ← o.asStringPairs
    let t ← t.asString
    let v ← v.asString
    some { moduleName := m, name := n, outputs := o, type := t, version := v }
  | _ => none

/-- Decode the dependency list from its JSON value. -/
def decodeDependencies : Json → Option (List RuntimeDependency)
  | .arr xs => xs.mapM decodeDependency
  | _ => none

/-- Modelled from the spec: the environment-variable name mangling —
"uppercased, non-alphanumerics replaced" (§4.5). -/
def mangleKey (s : String) : String :=
  String.mk (s.data.map fun c => if c.isAlphanum then c.toUpper else '_')

/-- Modelled from the spec: a dependency entity "with result" as passed
to `prepareRuntimeContext`, carrying its name, owning module, version
and the outputs looked up for its kind (module outputs for build
dependencies, current status outputs for services, last execution
result outputs for tasks). -/
structure DependencyEntity where
  name : String
  moduleName : String
  version : String
  outputs : List (String × String)
deriving Repr, DecidableEq

/-- A runtime context: the synthesized environment and the ordered
dependency sequence (§3). -/
structure RuntimeContext where
  envVars : List (String × String)
  dependencies : List RuntimeDependency
deriving Repr, DecidableEq

/-- The env-var prefix encoding a dependency kind: build dependencies
surface under `MODULE` (their outputs are module outputs), the runtime
kinds under their own name. -/
def dependencyPrefix (type : String) : String :=
  if type == "build" then "MODULE" else mangleKey type

/-- Lookup in the synthesized environment; later bindings win, as with
JS object-spread construction. -/
def envLookup (l : List (String × String)) (k : String) : Option String :=
  (l.reverse.find? fun kv => kv.1 == k).map fun kv => kv.2

/-- Tag an entity with its dependency kind, yielding its result bundle. -/
def DependencyEntity.toRuntimeDependency (e : DependencyEntity) (type : String) :
    RuntimeDependency :=
  { moduleName := e.moduleName
    name := e.name
    outputs := e.outputs
    type := type
    version := e.version }

/-- Modelled from the spec (§4.5): `prepareRuntimeContext` — one
variable for the module's own version; one per project variable under
`GARDEN_VARIABLES_` (name-mangled); per dependency one variable per
output key under a prefix encoding kind, entity name and output key;
and `GARDEN_DEPENDENCIES` holding the full serialized dependency list.
`dependencies` is the ordered sequence of result bundles, one per
entity passed in. -/
def prepareRuntimeContext (module : Module) (projectVars : List (String × String))
    (buildDeps serviceDeps taskDeps testDeps : List DependencyEntity) : RuntimeContext :=
  let dependencies :=
    buildDeps.map (DependencyEntity.toRuntimeDependency · "build")
      ++ serviceDeps.map (DependencyEntity.toRuntimeDependency · "service")
      ++ taskDeps.map (DependencyEntity.toRuntimeDependency · "task")
      ++ testDeps.map (DependencyEntity.toRuntimeDependency · "test")
  let versionVar := [("GARDEN_VERSION", module.version.versionString)]
  let varVars := projectVars.map fun kv => ("GARDEN_VARIABLES_" ++ mangleKey kv.1, kv.2)
  let outputVars := dependencies.flatMap fun d =>
    d.outputs.map fun kv =>
      ("GARDEN_" ++ dependencyPrefix d.type ++ "_" ++ mangleKey d.name ++ "__OUTPUT_"
          ++ mangleKey kv.1,
        kv.2)
  let depsVar := [("GARDEN_DEPENDENCIES", String.mk (stringifyVal (dependenciesJson dependencies)))]
  { envVars := versionVar ++ varVars ++ outputVars ++ depsVar
    dependencies := dependencies }

/-! ## Concrete instances used by counterexamples and witnesses -/

/-- Version of the example `lib` module. -/
def exVersionLib : ModuleVersion := { versionString := "v-lib-0001", files := ["lib/index.ts"] }

/-- Version of the example `web` module. -/
def exVersionWeb : ModuleVersion := { versionString := "v-web-0001", files := ["web/index.ts"] }

/-- Example dependency module `lib` (no build dependencies of its own). -/
def exModuleLib : Module :=
  { name := "lib", type := "test", build := { dependencies := [] }, version := exVersionLib }

/-- Example module `web`, with a build dependency on `lib`. -/
def exModuleWeb : Module :=
  { name := "web", type := "test"
    build := { dependencies := [{ name := "lib", copy := [] }] }
    version := exVersionWeb }

/-- Example config graph: `web` depends on `lib` for build. -/
def exGraph : ConfigGraph :=
  { buildDependencies := fun n => if n = "web" then [exModuleLib] else [] }

/-- A backend whose status probe reports every version ready and whose
build action succeeds. -/
def exReadyRouter : ActionRouter :=
  { buildStatus := fun _ => { ready := true }
    buildAction := fun _ => .ok { fresh := true }
    hasBuildHandler := fun _ => true }

/-- A backend whose status probe reports not-ready and whose build
action raises. -/
def exFailRouter : ActionRouter :=
  { buildStatus := fun _ => { ready := false }
    buildAction := fun _ => .error { message := "docker build exited with code 1" }
    hasBuildHandler := fun _ => true }

/-- A build task for `web` without `force`. -/
def exTaskNoForce : BuildTask := { module := exModuleWeb, force := false }

/-- A build task for `web` with `force`. -/
def exTaskForce : BuildTask := { module := exModuleWeb, force := true }

/-- The dependency task that `exTaskForce.getDependencies` constructs. -/
def exDepTaskForce : BuildTask := { module := exModuleLib, force := true }

/-- Build-task params for `web` without `force`. -/
def exParams : BuildTaskParams := { module := exModuleWeb, force := false }

/-- A module-type description with no schemas. -/
def exDescription : ModuleTypeDescription :=
  { name := "test", hasSchema := false, hasModuleOutputsSchema := false }

/-- A resolve environment whose collaborators are identities: only the
`test` module type is registered, validators accept unchanged, the
configure handler returns its input. -/
def exResolveEnv : ResolveEnv :=
  { projectRoot := "/project"
    relative := fun _ p => p
    resolveTemplateStrings := fun c => c
    moduleTypeDefinitions := fun ty => if ty = "test" then some exDescription else none
    validateSpec := fun _ c => .ok c.spec
    validateModuleConfig := fun c => .ok c
    loadExtSourcePath := fun _ _ => "/project/.garden/sources"
    configureModule := fun c => .ok c
    validateOutputs := fun _ c => .ok c.outputs
    getModuleTypeBases := fun _ => []
    validateSpecAgainstBase := fun _ c => .ok c.spec
    validateOutputsAgainstBase := fun _ c => .ok c.outputs }

/-- A raw module config using the bare-name dependency shorthand next to
an object-form entry. -/
def exRawConfig : ModuleConfig :=
  { name := "web", type := "test", path := "/project/web"
    build :=
      { dependencies :=
          [.nameOnly "lib",
           .full { name := "assets", copy := [{ source := "dist", target := "vendor" }] }] } }

/-- A raw module config whose type is not registered. -/
def exUnknownTypeConfig : ModuleConfig :=
  { name := "web", type := "mystery", path := "/project/web", configPath := some "/project/web/garden.yml"
    build := { dependencies := [] } }

/-- The module config `resolveModuleConfig` produces from
`exRawConfig` under `exResolveEnv`: the shorthand entry normalized,
everything else unchanged. -/
def exResolvedConfig : ModuleConfig :=
  { exRawConfig with
    build :=
      { dependencies :=
          [.full { name := "lib", copy := [] },
           .full { name := "assets", copy := [{ source := "dist", target := "vendor" }] }] } }

/-- An example keyed set over pairs, keyed by the first component. -/
def exKeyedSet : KeyedSet (String × Nat) :=
  { keyFn := Prod.fst, map := [("a", ("a", 1))] }

/-- An example dependency entity for the runtime context (a service
with one runtime output). -/
def exServiceEntity : DependencyEntity :=
  { name := "service-b", moduleName := "module-b", version := "v-b-0001"
    outputs := [("my-output", "moop")] }

/-! ## Theorems about `BuildTask` -/

/-- C3: `getBuildTasks` returns the module's own (single) Build task
exactly when some build dependency declares a non-empty copy list or
the backend registers a build handler for the module's type; otherwise
it returns the module's dependencies' Build tasks in its place. (The
hypothesis rules out a module listed among its own build dependencies,
which a config graph never produces.) -/
theorem getBuildTasks_elision (actions : ActionRouter) (dg : ConfigGraph) (p : BuildTaskParams)
    (hself : p.module ∉ dg.buildDependencies p.toTask.getName) :
    (getBuildTasks actions dg p = [p.toTask] ↔
      ((∃ d ∈ p.module.build.dependencies, d.copy ≠ []) ∨
        actions.hasBuildHandler p.module.type = true)) ∧
    ((¬ ((∃ d ∈ p.module.build.dependencies, d.copy ≠ []) ∨
        actions.hasBuildHandler p.module.type = true)) →
      getBuildTasks actions dg p = p.toTask.getDependencies dg) := by
  have hneeds :
      (p.module.build.dependencies.any (fun d => d.copy.length > 0)
          || actions.hasBuildHandler p.module.type) = true ↔
        ((∃ d ∈ p.module.build.dependencies, d.copy ≠ []) ∨
          actions.hasBuildHandler p.module.type = true) := by
    simp [List.any_eq_true, List.length_pos]
  by_cases hn :
      (p.module.build.dependencies.any (fun d => d.copy.length > 0)
        || actions.hasBuildHandler p.module.type) = true
  · have hres : getBuildTasks actions dg p = [p.toTask] := by
      simp [getBuildTasks, hn]
    exact ⟨iff_of_true hres (hneeds.mp hn), fun hcond => absurd (hneeds.mp hn) hcond⟩
  · have hfalse :
        (p.module.build.dependencies.any (fun d => d.copy.length > 0)
          || actions.hasBuildHandler p.module.type) = false := by
      simpa using hn
    have hres : getBuildTasks actions dg p = p.toTask.getDependencies dg := by
      simp [getBuildTasks, hfalse]
    have hcondfalse :
        ¬ ((∃ d ∈ p.module.build.dependencies, d.copy ≠ []) ∨
          actions.hasBuildHandler p.module.type = true) :=
      fun hc => hn (hneeds.mpr hc)
    refine ⟨iff_of_false ?_ hcondfalse, fun _ => hres⟩
    intro habs
    rw [hres] at habs
    unfold BuildTask.getDependencies at habs
    rcases hdeps : dg.buildDependencies p.toTask.getName with _ | ⟨m, rest⟩
    · rw [hdeps] at habs
      simp at habs
    · rw [hdeps] at habs
      rcases rest with _ | ⟨m2, rest2⟩
      · simp only [List.map_cons, List.map_nil, List.cons.injEq, and_true] at habs
        have hm : m = p.module := congrArg BuildTask.module habs
        apply hself
        rw [hdeps]
        subst hm
        exact List.mem_singleton_self _
      · simp at habs

/-- Witness for C3 at the `web` params, the all-ready backend (which
registers a build handler for every type) and the example graph. -/
theorem getBuildTasks_elision_witness :
    exParams.module ∉ exGraph.buildDependencies exParams.toTask.getName ∧
      ((getBuildTasks exReadyRouter exGraph exParams = [exParams.toTask] ↔
        ((∃ d ∈ exParams.module.build.dependencies, d.copy ≠ []) ∨
          exReadyRouter.hasBuildHandler exParams.module.type = true)) ∧
      ((¬ ((∃ d ∈ exParams.module.build.dependencies, d.copy ≠ []) ∨
          exReadyRouter.hasBuildHandler exParams.module.type = true)) →
        getBuildTasks exReadyRouter exGraph exParams = exParams.toTask.getDependencies exGraph)) :=
  ⟨by decide, getBuildTasks_elision exReadyRouter exGraph exParams (by decide)⟩

/-- C1: for every Build task with `force = false`, if the backend status
probe reports the current version ready, `process()` returns
`\x7b fresh: false \x7d`, the backend build execution action is never
invoked, and the only action-router call in the run is the status
probe. -/
theorem buildTask_cache_hit_skips_build (t : BuildTask) (actions : ActionRouter)
    (hforce : t.force = false) (hready : (actions.buildStatus t.module).ready = true) :
    (t.process actions).1 = .ok { fresh := false } ∧
      ((t.process actions).2.filter ProcessEvent.isActionRouterCall
        = [ProcessEvent.getBuildStatus t.module.name]) ∧
      ∀ e ∈ (t.process actions).2, e.isBuildAction = false := by
  simp [BuildTask.process, hforce, hready, ProcessEvent.isActionRouterCall,
    ProcessEvent.isBuildAction]

/-- Witness for C1 at the `web` task and the all-ready backend. -/
theorem buildTask_cache_hit_skips_build_witness :
    exTaskNoForce.force = false ∧
      (exReadyRouter.buildStatus exTaskNoForce.module).ready = true ∧
      ((exTaskNoForce.process exReadyRouter).1 = .ok { fresh := false } ∧
        ((exTaskNoForce.process exReadyRouter).2.filter ProcessEvent.isActionRouterCall
          = [ProcessEvent.getBuildStatus exTaskNoForce.module.name]) ∧
        ∀ e ∈ (exTaskNoForce.process exReadyRouter).2, e.isBuildAction = false) :=
  ⟨rfl, rfl, buildTask_cache_hit_skips_build exTaskNoForce exReadyRouter rfl rfl⟩

/-- C6: for every Build task with `force = true`, `process()` invokes
the backend build execution action, whatever the status probe would
report. -/
theorem buildTask_force_always_builds (t : BuildTask) (actions : ActionRouter)
    (hforce : t.force = true) :
    ProcessEvent.build t.module.name ∈ (t.process actions).2 := by
  cases h : actions.buildAction t.module <;>
    simp [BuildTask.process, BuildTask.runBuildAction, hforce, h]

/-- Witness for C6 at the forced `web` task and the all-ready backend
(whose status probe would have reported ready). -/
theorem buildTask_force_always_builds_witness :
    exTaskForce.force = true ∧
      (exReadyRouter.buildStatus exTaskForce.module).ready = true ∧
      ProcessEvent.build exTaskForce.module.name ∈ (exTaskForce.process exReadyRouter).2 :=
  ⟨rfl, rfl, buildTask_force_always_builds exTaskForce exReadyRouter rfl⟩

/-- C7: whenever the backend build action raises (and is reached: the
task is forced or the status probe reports not ready), `process()`
propagates that very error, the task's log is marked failed, and the
build-directory operations of the run are exactly the two workspace
syncs performed before the failure — nothing is rolled back. -/
theorem buildTask_failure_propagates (t : BuildTask) (actions : ActionRouter) (e : BackendError)
    (herr : actions.buildAction t.module = .error e)
    (hreached : t.force = true ∨ (actions.buildStatus t.module).ready = false) :
    (t.process actions).1 = .error e ∧
      ProcessEvent.logSetError ∈ (t.process actions).2 ∧
      (t.process actions).2.filter ProcessEvent.isBuildDirOp
        = [ProcessEvent.syncFromSrc t.module.name,
           ProcessEvent.syncDependencyProducts t.module.name] := by
  by_cases hf : t.force = true
  · simp [BuildTask.process, BuildTask.runBuildAction, hf, herr, ProcessEvent.isBuildDirOp]
  · have hf' : t.force = false := by simpa using hf
    have hready : (actions.buildStatus t.module).ready = false := by
      rcases hreached with h | h
      · exact absurd h hf
      · exact h
    simp [BuildTask.process, BuildTask.runBuildAction, hf', hready, herr,
      ProcessEvent.isBuildDirOp]

/-- Witness for C7 at the unforced `web` task and the failing backend. -/
theorem buildTask_failure_propagates_witness :
    exFailRouter.buildAction exTaskNoForce.module
        = .error { message := "docker build exited with code 1" } ∧
      (exTaskNoForce.force = true ∨ (exFailRouter.buildStatus exTaskNoForce.module).ready = false) ∧
      ((exTaskNoForce.process exFailRouter).1
          = .error { message := "docker build exited with code 1" } ∧
        ProcessEvent.logSetError ∈ (exTaskNoForce.process exFailRouter).2 ∧
        (exTaskNoForce.process exFailRouter).2.filter ProcessEvent.isBuildDirOp
          = [ProcessEvent.syncFromSrc exTaskNoForce.module.name,
             ProcessEvent.syncDependencyProducts exTaskNoForce.module.name]) :=
  ⟨rfl, Or.inr rfl,
    buildTask_failure_propagates exTaskNoForce exFailRouter _ rfl (Or.inr rfl)⟩

/-- C4 counterexample: a Build task constructed with `force = true`
whose `getDependencies` returns a dependency task that is itself
forced — `getDependencies` passes `force: this.force` through, so the
dependency of a forced task does bypass its own cache check. -/
theorem buildTask_force_deps_cex :
    exTaskForce.force = true ∧
      (exTaskForce.getDependencies exGraph).map BuildTask.force = [true] :=
  ⟨rfl, rfl⟩

/-- C4 amended: `getDependencies` forwards the parent task's `force`
flag to every dependency task it constructs — the dependencies of a
forced Build task are forced, and those of an unforced one are not. -/
theorem buildTask_getDependencies_forwards_force (t : BuildTask) (dg : ConfigGraph) :
    ∀ d ∈ t.getDependencies dg, d.force = t.force := by
  intro d hd
  simp only [BuildTask.getDependencies, List.mem_map] at hd
  obtain ⟨m, _, rfl⟩ := hd
  rfl

/-- Witness for the amended C4 at the forced `web` task. -/
theorem buildTask_getDependencies_forwards_force_witness :
    exDepTaskForce ∈ exTaskForce.getDependencies exGraph ∧
      exDepTaskForce.force = exTaskForce.force :=
  ⟨by decide,
    buildTask_getDependencies_forwards_force exTaskForce exGraph exDepTaskForce (by decide)⟩

/-- C5 counterexample: a cache-hit run (`force = false`, backend
reports ready) that returns `\x7b fresh: false \x7d` and nevertheless
performs both the source sync and the dependency-product copy into the
build workspace — `process()` runs them before the status check on
every call. -/
theorem buildTask_cache_hit_syncs_cex :
    exTaskNoForce.force = false ∧
      (exTaskNoForce.process exReadyRouter).1 = .ok { fresh := false } ∧
      ProcessEvent.syncFromSrc "web" ∈ (exTaskNoForce.process exReadyRouter).2 ∧
      ProcessEvent.syncDependencyProducts "web" ∈ (exTaskNoForce.process exReadyRouter).2 := by
  refine ⟨rfl, rfl, ?_, ?_⟩ <;> decide

/-- C5 amended: a cache-hit run returns `fresh = false` and never
invokes the backend build action, but the source-sync and
dependency-product copy steps are still performed (they precede the
status check on every run). -/
theorem buildTask_cache_hit_frame (t : BuildTask) (actions : ActionRouter)
    (hforce : t.force = false) (hready : (actions.buildStatus t.module).ready = true) :
    (t.process actions).1 = .ok { fresh := false } ∧
      (∀ e ∈ (t.process actions).2, e.isBuildAction = false) ∧
      (t.process actions).2.filter ProcessEvent.isBuildDirOp
        = [ProcessEvent.syncFromSrc t.module.name,
           ProcessEvent.syncDependencyProducts t.module.name] := by
  simp [BuildTask.process, hforce, hready, ProcessEvent.isBuildAction,
    ProcessEvent.isBuildDirOp]

/-- Witness for the amended C5 at the `web` task and the all-ready
backend. -/
theorem buildTask_cache_hit_frame_witness :
    exTaskNoForce.force = false ∧
      (exReadyRouter.buildStatus exTaskNoForce.module).ready = true ∧
      ((exTaskNoForce.process exReadyRouter).1 = .ok { fresh := false } ∧
        (∀ e ∈ (exTaskNoForce.process exReadyRouter).2, e.isBuildAction = false) ∧
        (exTaskNoForce.process exReadyRouter).2.filter ProcessEvent.isBuildDirOp
          = [ProcessEvent.syncFromSrc exTaskNoForce.module.name,
             ProcessEvent.syncDependencyProducts exTaskNoForce.module.name]) :=
  ⟨rfl, rfl, buildTask_cache_hit_frame exTaskNoForce exReadyRouter rfl rfl⟩

/-! ## Theorems about `resolveModuleConfig` -/

/-- Peel one `Except` bind off a success equation. -/
theorem except_bind_ok {ε α β : Type} {x : Except ε α} {f : α → Except ε β} {b : β}
    (h : (x >>= f) = .ok b) : ∃ a, x = .ok a ∧ f a = .ok b := by
  cases x with
  | error e => simp [Bind.bind, Except.bind] at h
  | ok a => exact ⟨a, rfl, by simpa [Bind.bind, Except.bind] using h⟩

/-- Peel an `Except.map` off a success equation. -/
theorem except_map_ok {ε α β : Type} {x : Except ε α} {f : α → β} {b : β}
    (h : x.map f = .ok b) : ∃ a, x = .ok a ∧ f a = b := by
  cases x with
  | error e => simp [Except.map] at h
  | ok a => exact ⟨a, rfl, by simpa [Except.map] using h⟩

/-- Both halves of `validateAgainstBase` (and the spec/outputs stages)
preserve the `build` section: they only write `spec` or `outputs`. -/
theorem validateAgainstBase_build (env : ResolveEnv) (c : ModuleConfig)
    (base : ModuleTypeDescription) (c' : ModuleConfig)
    (h : validateAgainstBase env c base = .ok c') : c'.build = c.build := by
  unfold validateAgainstBase at h
  obtain ⟨c2, h2, h3⟩ := except_bind_ok h
  have hc2 : c2.build = c.build := by
    cases hs : base.hasSchema <;> rw [hs] at h2
    · simp only [Bool.false_eq_true, if_false, pure, Except.pure, Except.ok.injEq] at h2
      rw [← h2]
    · simp only [if_true] at h2
      obtain ⟨s, _, hp⟩ := except_map_ok h2
      rw [← hp]
  have hc' : c'.build = c2.build := by
    cases ho : base.hasModuleOutputsSchema <;> rw [ho] at h3
    · simp only [Bool.false_eq_true, if_false, pure, Except.pure, Except.ok.injEq] at h3
      rw [← h3]
    · simp only [if_true] at h3
      obtain ⟨o, _, hp⟩ := except_map_ok h3
      rw [← hp]
  rw [hc', hc2]

/-- The base-validation loop preserves the `build` section. -/
theorem foldlM_validateAgainstBase_build (env : ResolveEnv) :
    ∀ (bases : List ModuleTypeDescription) (c c' : ModuleConfig),
      bases.foldlM (validateAgainstBase env) c = .ok c' → c'.build = c.build := by
  intro bases
  induction bases with
  | nil =>
    intro c c' h
    simp only [List.foldlM_nil, pure, Except.pure, Except.ok.injEq] at h
    rw [← h]
  | cons b bs ih =>
    intro c c' h
    rw [List.foldlM_cons] at h
    obtain ⟨c2, h2, h3⟩ := except_bind_ok h
    rw [ih c2 c' h3, validateAgainstBase_build env c b c2 h2]

/-- Key-qualification only renames; the `build` section survives. -/
theorem qualifyNames_build (c : ModuleConfig) : (qualifyNames c).build = c.build := by
  unfold qualifyNames
  cases hp : c.plugin <;> simp [hp]

/-- C8: whenever `resolveModuleConfig` succeeds — for any collaborators
whose whole-config validator and configure handler leave the `build`
section alone — the result's build dependencies are those of the
template-resolved input with every bare-name entry normalized to
`\x7b name, copy: [] \x7d` and every object entry unchanged. -/
theorem resolveModuleConfig_normalizes_deps (env : ResolveEnv) (config0 result : ModuleConfig)
    (hval : ∀ c c', env.validateModuleConfig c = .ok c' → c'.build = c.build)
    (hcfg : ∀ c c', env.configureModule c = .ok c' → c'.build = c.build)
    (hres : resolveModuleConfig env config0 = .ok result) :
    result.build.dependencies =
      (env.resolveTemplateStrings config0).build.dependencies.map normalizeBuildDependency := by
  unfold resolveModuleConfig at hres
  unfold resolveResolved at hres
  cases hmtd : env.moduleTypeDefinitions (env.resolveTemplateStrings config0).type <;>
    rw [hmtd] at hres
  · simp [throw, throwThe, MonadExceptOf.throw] at hres
  case some desc =>
  unfold resolveWithDescription at hres
  obtain ⟨c2, h2, hres⟩ := except_bind_ok hres
  have hc2 : c2.build = (env.resolveTemplateStrings config0).build := by
    unfold validateSpecStage at h2
    cases hs : desc.hasSchema <;> rw [hs] at h2
    · simp only [Bool.false_eq_true, if_false, pure, Except.pure, Except.ok.injEq] at h2
      rw [← h2]
    · simp only [if_true] at h2
      obtain ⟨s, _, hp⟩ := except_map_ok h2
      rw [← hp]
  obtain ⟨c3, h3, hres⟩ := except_bind_ok hres
  have hc3 : c3.build.dependencies = c2.build.dependencies.map normalizeBuildDependency := by
    rw [hval _ _ h3]
    rfl
  obtain ⟨c4, h4, hres⟩ := except_bind_ok hres
  have hc4 : c4.build = c3.build := by
    have hrepo : (extSourceStage env c3).build = c3.build := by
      unfold extSourceStage
      cases c3.repositoryUrl <;> rfl
    rw [hcfg _ _ h4, hrepo]
  obtain ⟨c5, h5, hres⟩ := except_bind_ok hres
  have hc5 : c5.build = c4.build := by
    unfold validateOutputsStage at h5
    cases ho : desc.hasModuleOutputsSchema <;> rw [ho] at h5
    · simp only [Bool.false_eq_true, if_false, pure, Except.pure, Except.ok.injEq] at h5
      rw [← h5]
    · simp only [if_true] at h5
      obtain ⟨o, _, hp⟩ := except_map_ok h5
      rw [← hp]
  obtain ⟨c6, h6, hres⟩ := except_bind_ok hres
  have hc6 : c6.build = c5.build := foldlM_validateAgainstBase_build env _ c5 c6 h6
  simp only [pure, Except.pure, Except.ok.injEq] at hres
  rw [← hres, qualifyNames_build, hc6, hc5, hc4, hc3, hc2]

/-- Witness for C8 at the identity collaborators and the config using
the shorthand next to an object-form dependency. -/
theorem resolveModuleConfig_normalizes_deps_witness :
    resolveModuleConfig exResolveEnv exRawConfig = .ok exResolvedConfig ∧
      exResolvedConfig.build.dependencies =
        (exResolveEnv.resolveTemplateStrings exRawConfig).build.dependencies.map
          normalizeBuildDependency :=
  ⟨rfl,
    resolveModuleConfig_normalizes_deps exResolveEnv exRawConfig exResolvedConfig
      (fun c c' h => by cases h; rfl)
      (fun c c' h => by cases h; rfl)
      rfl⟩

/-- C9: a module config whose (template-resolved) type has no
registered module-type definition makes `resolveModuleConfig` fail with
a `ConfigurationError` — no other error kind, no silent acceptance —
whose message contains the offending config path. -/
theorem resolveModuleConfig_unknown_type (env : ResolveEnv) (config0 : ModuleConfig)
    (h : env.moduleTypeDefinitions (env.resolveTemplateStrings config0).type = none) :
    ∃ msg, resolveModuleConfig env config0 = .error (.configurationError msg) ∧
      ∃ pre post,
        msg = pre ++ env.relative env.projectRoot
          ((env.resolveTemplateStrings config0).configPath.getD
            (env.resolveTemplateStrings config0).path) ++ post := by
  refine ⟨unknownTypeMessage (env.resolveTemplateStrings config0).type
      (env.relative env.projectRoot
        ((env.resolveTemplateStrings config0).configPath.getD
          (env.resolveTemplateStrings config0).path)), ?_, ?_⟩
  · unfold resolveModuleConfig resolveResolved
    rw [h]
    rfl
  · exact ⟨"Unrecognized module type \x27"
        ++ (env.resolveTemplateStrings config0).type ++ "\x27 (defined at ",
      "). Are you missing a provider configuration?", rfl⟩

/-- Witness for C9 at the identity collaborators and the `mystery`-typed
config. -/
theorem resolveModuleConfig_unknown_type_witness :
    exResolveEnv.moduleTypeDefinitions
        (exResolveEnv.resolveTemplateStrings exUnknownTypeConfig).type = none ∧
      ∃ msg, resolveModuleConfig exResolveEnv exUnknownTypeConfig
          = .error (.configurationError msg) ∧
        ∃ pre post,
          msg = pre ++ exResolveEnv.relative exResolveEnv.projectRoot
            ((exResolveEnv.resolveTemplateStrings exUnknownTypeConfig).configPath.getD
              (exResolveEnv.resolveTemplateStrings exUnknownTypeConfig).path) ++ post :=
  ⟨by decide, resolveModuleConfig_unknown_type exResolveEnv exUnknownTypeConfig (by decide)⟩

/-! ## Theorems about `KeyedSet` -/

namespace KeyedSet

variable {V : Type}

/-- After `Map.set k v` the key `k` is present. -/
theorem mapSet_hasKey (m : List (String × V)) (k : String) (v : V) :
    (mapSet m k v).any (fun p => p.1 == k) = true := by
  unfold mapSet
  split
  case isTrue h =>
    rw [List.any_eq_true] at h ⊢
    obtain ⟨p, hp, he⟩ := h
    refine ⟨(k, v), List.mem_map.mpr ⟨p, hp, ?_⟩, by simp⟩
    simp [he]
  case isFalse h =>
    simp [List.any_append]

/-- After `Map.set k v` the entry `(k, v)` is a member. -/
theorem mapSet_mem (m : List (String × V)) (k : String) (v : V) :
    (k, v) ∈ mapSet m k v := by
  unfold mapSet
  split
  case isTrue h =>
    rw [List.any_eq_true] at h
    obtain ⟨p, hp, he⟩ := h
    exact List.mem_map.mpr ⟨p, hp, by simp [he]⟩
  case isFalse h =>
    simp

/-- `Map.set` of a present key does not change the number of entries. -/
theorem mapSet_length_of_hasKey (m : List (String × V)) (k : String) (v : V)
    (h : m.any (fun p => p.1 == k) = true) : (mapSet m k v).length = m.length := by
  unfold mapSet
  rw [if_pos h, List.length_map]

/-- The key sequence after `Map.set`: unchanged when the key is
present, extended by the key otherwise. -/
theorem mapSet_keys (m : List (String × V)) (k : String) (v : V) :
    (mapSet m k v).map Prod.fst =
      if m.any (fun p => p.1 == k) then m.map Prod.fst else m.map Prod.fst ++ [k] := by
  by_cases h : (m.any fun p => p.1 == k) = true
  · rw [if_pos h]
    unfold mapSet
    rw [if_pos h, List.map_map]
    refine List.map_congr_left fun p _ => ?_
    by_cases hk : p.1 == k
    · simp only [Function.comp_apply, if_pos hk]
      exact (eq_of_beq hk).symm
    · simp only [Function.comp_apply, if_neg hk]
  · rw [if_neg h]
    unfold mapSet
    rw [if_neg h, List.map_append]
    rfl

/-- `add` preserves the representation invariant. -/
theorem add_wellFormed (s : KeyedSet V) (v : V) (hwf : s.WellFormed) :
    (s.add v).WellFormed := by
  obtain ⟨hnd, hcons⟩ := hwf
  constructor
  · show ((mapSet s.map (s.keyFn v) v).map Prod.fst).Nodup
    rw [mapSet_keys]
    split
    case isTrue h => exact hnd
    case isFalse h =>
      rw [List.nodup_append]
      refine ⟨hnd, List.nodup_singleton _, ?_⟩
      intro k hk hk1
      rw [List.mem_singleton] at hk1
      subst hk1
      rw [List.mem_map] at hk
      obtain ⟨p, hp, hpk⟩ := hk
      rw [Bool.not_eq_true, List.any_eq_false] at h
      exact h p hp (by simp [hpk])
  · intro p hp
    show p.1 = s.keyFn p.2
    unfold add mapSet at hp
    split at hp
    case isTrue h =>
      rw [List.mem_map] at hp
      obtain ⟨q, hq, hqe⟩ := hp
      by_cases hk : q.1 == s.keyFn v
      · rw [if_pos hk] at hqe
        rw [← hqe]
      · rw [if_neg hk] at hqe
        rw [← hqe]
        exact hcons q hq
    case isFalse h =>
      rw [List.mem_append] at hp
      rcases hp with hp | hp
      · exact hcons p hp
      · rw [List.mem_singleton] at hp
        rw [hp]

/-- `delete` preserves the representation invariant. -/
theorem delete_wellFormed (s : KeyedSet V) (v : V) (hwf : s.WellFormed) :
    (s.delete v).1.WellFormed := by
  obtain ⟨hnd, hcons⟩ := hwf
  constructor
  · show ((s.map.filter _).map Prod.fst).Nodup
    exact List.Nodup.sublist ((List.filter_sublist _).map Prod.fst) hnd
  · intro p hp
    exact hcons p (List.mem_of_mem_filter hp)

/-- `clear` preserves the representation invariant. -/
theorem clear_wellFormed (s : KeyedSet V) : s.clear.WellFormed :=
  ⟨List.nodup_nil, fun p hp => absurd hp (List.not_mem_nil p)⟩

/-- With unique keys, at most one entry carries a given key. -/
theorem nodup_filter_key (m : List (String × V)) (hnd : (m.map Prod.fst).Nodup) (k : String) :
    (m.filter fun p => p.1 == k).length ≤ 1 := by
  induction m with
  | nil => simp
  | cons q m ih =>
    rw [List.map_cons, List.nodup_cons] at hnd
    obtain ⟨hq, hnd⟩ := hnd
    by_cases hk : q.1 == k
    · have hrest : (m.filter fun p => p.1 == k) = [] := by
        rw [List.filter_eq_nil_iff]
        intro p hp
        intro hpk
        apply hq
        rw [List.mem_map]
        exact ⟨p, hp, by rw [eq_of_beq hpk, eq_of_beq hk]⟩
      simp [List.filter_cons, hk, hrest]
    · simp only [List.filter_cons, hk, Bool.false_eq_true, if_false]
      exact ih hnd

/-- A well-formed set has at most one member per key. -/
theorem wf_atMostOnePerKey (s : KeyedSet V) (hwf : s.WellFormed) : s.atMostOnePerKey := by
  obtain ⟨hnd, hcons⟩ := hwf
  intro k
  unfold entries
  rw [List.filter_map, List.length_map]
  have : (s.map.filter ((fun u => s.keyFn u == k) ∘ Prod.snd)) = s.map.filter fun p => p.1 == k := by
    apply List.filter_congr
    intro p hp
    show (s.keyFn p.2 == k) = (p.1 == k)
    rw [hcons p hp]
  rw [this]
  exact nodup_filter_key s.map hnd k

/-- In a well-formed set, the member stored under `keyFn v` after
`add v` is `v` itself: any member sharing the key is `v`. -/
theorem add_unique (s : KeyedSet V) (v : V) (hwf : s.WellFormed) :
    ∀ u ∈ (s.add v).entries, s.keyFn u = s.keyFn v → u = v := by
  obtain ⟨hnd, hcons⟩ := hwf
  intro u hu hk
  unfold add entries mapSet at hu
  rw [List.mem_map] at hu
  obtain ⟨p, hp, hpu⟩ := hu
  split at hp
  case isTrue h =>
    rw [List.mem_map] at hp
    obtain ⟨q, hq, hqe⟩ := hp
    by_cases hqk : q.1 == s.keyFn v
    · rw [if_pos hqk] at hqe
      rw [← hqe] at hpu
      exact hpu.symm ▸ rfl
    · rw [if_neg hqk] at hqe
      rw [← hqe] at hpu
      exfalso
      apply hqk
      rw [hcons q hq, hpu, hk]
      exact beq_self_eq_true _
  case isFalse h =>
    rw [List.mem_append] at hp
    rcases hp with hp | hp
    · exfalso
      rw [Bool.not_eq_true, List.any_eq_false] at h
      apply h p hp
      rw [hcons p hp, hpu, hk]
      exact beq_self_eq_true _
    · rw [List.mem_singleton] at hp
      rw [hp] at hpu
      exact hpu.symm ▸ rfl

/-- The entries after `add`: an in-place replacement when the key was
present, an append otherwise (insertion order of keys). -/
theorem add_entries (s : KeyedSet V) (v : V) (hwf : s.WellFormed) :
    (s.add v).entries =
      if s.hasKey (s.keyFn v) then
        s.entries.map fun u => if s.keyFn u == s.keyFn v then v else u
      else s.entries ++ [v] := by
  obtain ⟨hnd, hcons⟩ := hwf
  by_cases h : s.hasKey (s.keyFn v) = true
  · rw [if_pos h]
    have h' : (s.map.any fun p => p.1 == s.keyFn v) = true := h
    show ((mapSet s.map (s.keyFn v) v).map Prod.snd) = _
    unfold mapSet
    rw [if_pos h', List.map_map]
    unfold entries
    rw [List.map_map]
    refine List.map_congr_left fun p hp => ?_
    by_cases hk : p.1 == s.keyFn v
    · have hk2 : (s.keyFn p.2 == s.keyFn v) = true := by rw [← hcons p hp]; exact hk
      simp only [Function.comp_apply, if_pos hk, hk2, if_true]
    · have hk2 : ¬ (s.keyFn p.2 == s.keyFn v) = true := by rw [← hcons p hp]; exact hk
      simp only [Function.comp_apply, if_neg hk, if_neg hk2]
  · rw [if_neg h]
    have h' : ¬ (s.map.any fun p => p.1 == s.keyFn v) = true := h
    show ((mapSet s.map (s.keyFn v) v).map Prod.snd) = _
    unfold mapSet
    rw [if_neg h', List.map_append]
    rfl

end KeyedSet

/-- C10: the `KeyedSet` deduplicates strictly by its key function:
after `add v` both `has v` and `hasKey (keyFn v)` hold; adding a second
value with the same key replaces the first without increasing `size`
(the member stored under the key is the new value); well-formedness —
hence at-most-one-member-per-key — is preserved by `add`, `delete` and
`clear`; and `entries` returns members in insertion order of their keys
(in-place replacement for a present key, append for a fresh one). -/
theorem keyedSet_dedup (s : KeyedSet V) (v : V) (hwf : s.WellFormed) :
    ((s.add v).has v = true ∧ (s.add v).hasKey (s.keyFn v) = true) ∧
    (∀ w : V, s.keyFn w = s.keyFn v →
      ((s.add w).add v).size = (s.add w).size ∧
      v ∈ ((s.add w).add v).entries ∧
      (∀ u ∈ ((s.add w).add v).entries, s.keyFn u = s.keyFn v → u = v)) ∧
    ((s.add v).WellFormed ∧ (s.add v).atMostOnePerKey) ∧
    (∀ w : V, (s.delete w).1.WellFormed ∧ (s.delete w).1.atMostOnePerKey) ∧
    (s.clear.WellFormed ∧ s.clear.atMostOnePerKey) ∧
    ((s.add v).entries =
      if s.hasKey (s.keyFn v) then
        s.entries.map fun u => if s.keyFn u == s.keyFn v then v else u
      else s.entries ++ [v]) := by
  refine ⟨⟨?_, ?_⟩, ?_, ?_, ?_, ?_, KeyedSet.add_entries s v hwf⟩
  · exact KeyedSet.mapSet_hasKey s.map (s.keyFn v) v
  · exact KeyedSet.mapSet_hasKey s.map (s.keyFn v) v
  · intro w hwk
    have hpresent : ((s.add w).map.any fun p => p.1 == s.keyFn v) = true := by
      rw [← hwk]
      exact KeyedSet.mapSet_hasKey s.map (s.keyFn w) w
    refine ⟨?_, ?_, ?_⟩
    · exact KeyedSet.mapSet_length_of_hasKey (s.add w).map (s.keyFn v) v hpresent
    · show v ∈ ((s.add w).add v).map.map Prod.snd
      exact List.mem_map.mpr ⟨(s.keyFn v, v),
        KeyedSet.mapSet_mem (s.add w).map (s.keyFn v) v, rfl⟩
    · exact KeyedSet.add_unique (s.add w) v (KeyedSet.add_wellFormed s w hwf)
  · have h := KeyedSet.add_wellFormed s v hwf
    exact ⟨h, KeyedSet.wf_atMostOnePerKey _ h⟩
  · intro w
    have h := KeyedSet.delete_wellFormed s w hwf
    exact ⟨h, KeyedSet.wf_atMostOnePerKey _ h⟩
  · have h := KeyedSet.clear_wellFormed s
    exact ⟨h, KeyedSet.wf_atMostOnePerKey _ h⟩

/-- Witness for C10 at a concrete keyed set of pairs keyed by their
first component. -/
theorem keyedSet_dedup_witness :
    exKeyedSet.WellFormed ∧
    (((exKeyedSet.add ("b", 2)).has ("b", 2) = true ∧
        (exKeyedSet.add ("b", 2)).hasKey (exKeyedSet.keyFn ("b", 2)) = true) ∧
      (∀ w, exKeyedSet.keyFn w = exKeyedSet.keyFn ("b", 2) →
        ((exKeyedSet.add w).add ("b", 2)).size = (exKeyedSet.add w).size ∧
        ("b", 2) ∈ ((exKeyedSet.add w).add ("b", 2)).entries ∧
        (∀ u ∈ ((exKeyedSet.add w).add ("b", 2)).entries,
          exKeyedSet.keyFn u = exKeyedSet.keyFn ("b", 2) → u = ("b", 2))) ∧
      ((exKeyedSet.add ("b", 2)).WellFormed ∧ (exKeyedSet.add ("b", 2)).atMostOnePerKey) ∧
      (∀ w, (exKeyedSet.delete w).1.WellFormed ∧ (exKeyedSet.delete w).1.atMostOnePerKey) ∧
      (exKeyedSet.clear.WellFormed ∧ exKeyedSet.clear.atMostOnePerKey) ∧
      ((exKeyedSet.add ("b", 2)).entries =
        if exKeyedSet.hasKey (exKeyedSet.keyFn ("b", 2)) then
          exKeyedSet.entries.map fun u =>
            if exKeyedSet.keyFn u == exKeyedSet.keyFn ("b", 2) then ("b", 2) else u
        else exKeyedSet.entries ++ [("b", 2)])) :=
  ⟨⟨by decide, by decide⟩, keyedSet_dedup exKeyedSet ("b", 2) ⟨by decide, by decide⟩⟩

/-! ## JSON round-trip -/

/-- Hex digits decode back. -/
theorem hexVal_hexDigitChar : ∀ n : Nat, n < 16 → hexVal (hexDigitChar n) = some n := by
  decide

/-- Escaped string bodies parse back, consuming exactly up to the
closing quote. -/
theorem parseStringBody_round (s : List Char) : ∀ rest : List Char,
    parseStringBody (escapeString s ++ '"' :: rest) = some (s, rest) := by
  induction s with
  | nil =>
    intro rest
    simp [escapeString, parseStringBody]
  | cons c s ih =>
    intro rest
    have hesc : escapeString (c :: s) ++ '"' :: rest
        = escapeChar c ++ (escapeString s ++ '"' :: rest) := by
      simp [escapeString]
    rw [hesc]
    by_cases h1 : c = '"'
    · subst h1
      rw [show escapeChar '"' = ['\\', '"'] from rfl]
      simp [parseStringBody, unescapeChar, ih]
    by_cases h2 : c = '\\'
    · subst h2
      rw [show escapeChar '\\' = ['\\', '\\'] from rfl]
      simp [parseStringBody, unescapeChar, ih]
    by_cases h3 : c = Char.ofNat 8
    · subst h3
      rw [show escapeChar (Char.ofNat 8) = ['\\', 'b'] from rfl]
      simp [parseStringBody, unescapeChar, ih]
    by_cases h4 : c = Char.ofNat 9
    · subst h4
      rw [show escapeChar (Char.ofNat 9) = ['\\', 't'] from rfl]
      simp [parseStringBody, unescapeChar, ih]
    by_cases h5 : c = Char.ofNat 10
    · subst h5
      rw [show escapeChar (Char.ofNat 10) = ['\\', 'n'] from rfl]
      simp [parseStringBody, unescapeChar, ih]
    by_cases h6 : c = Char.ofNat 12
    · subst h6
      rw [show escapeChar (Char.ofNat 12) = ['\\', 'f'] from rfl]
      simp [parseStringBody, unescapeChar, ih]
    by_cases h7 : c = Char.ofNat 13
    · subst h7
      rw [show escapeChar (Char.ofNat 13) = ['\\', 'r'] from rfl]
      simp [parseStringBody, unescapeChar, ih]
    by_cases h8 : c.toNat < 32
    · have hesc2 : escapeChar c
          = ['\\', 'u', '0', '0', hexDigitChar (c.toNat / 16), hexDigitChar (c.toNat % 16)] := by
        unfold escapeChar
        rw [if_neg h1, if_neg h2, if_neg h3, if_neg h4, if_neg h5, if_neg h6, if_neg h7,
          if_pos h8]
      rw [hesc2]
      have hd0 : hexVal '0' = some 0 := by decide
      have hhi : hexVal (hexDigitChar (c.toNat / 16)) = some (c.toNat / 16) :=
        hexVal_hexDigitChar _ (by omega)
      have hlo : hexVal (hexDigitChar (c.toNat % 16)) = some (c.toNat % 16) :=
        hexVal_hexDigitChar _ (by omega)
      simp only [parseStringBody, hd0, hhi, hlo]
      simp [ih]
      have harith : c.toNat / 16 * 16 + c.toNat % 16 = c.toNat := by omega
      rw [harith, Char.ofNat_toNat]
    · have hesc2 : escapeChar c = [c] := by
        unfold escapeChar
        rw [if_neg h1, if_neg h2, if_neg h3, if_neg h4, if_neg h5, if_neg h6, if_neg h7,
          if_neg h8]
      rw [hesc2]
      simp [parseStringBody, h1, h2, ih]

/-- Every serialized JSON value starts with a quote, a bracket or a
brace. -/
theorem stringifyVal_head (j : Json) :
    ∃ tl : List Char, stringifyVal j = '"' :: tl ∨ stringifyVal j = '[' :: tl ∨
      stringifyVal j = '\x7b' :: tl := by
  cases j with
  | str s => exact ⟨escapeString s.data ++ ['"'], Or.inl (by simp [stringifyVal, strLit])⟩
  | arr xs => exact ⟨stringifyElems xs ++ [']'], Or.inr (Or.inl (by simp [stringifyVal]))⟩
  | obj fs => exact ⟨stringifyFields fs ++ ['\x7d'], Or.inr (Or.inr (by simp [stringifyVal]))⟩

/-- Reduction of `parseElems` on a non-`]` head: parse one value, then
branch on the following delimiter. -/
theorem parseElems_cons (f : Nat) (c : Char) (l : List Char) (hc : ¬ c = ']') :
    parseElems (f + 1) (c :: l) =
      (parseVal f (c :: l)).bind fun vr =>
        match vr.2 with
        | ',' :: r2 => (parseElems f r2).bind fun er => some (vr.1 :: er.1, er.2)
        | ']' :: r2 => some ([vr.1], r2)
        | _ => none := by
  rw [parseElems]
  rw [if_neg hc]

/-- Serialized values, array-element lists and object-field lists parse
back exactly, with any fuel at least the serialized length. -/
theorem parse_round_master (fuel : Nat) :
    (∀ (j : Json) (rest : List Char), (stringifyVal j).length ≤ fuel →
      parseVal fuel (stringifyVal j ++ rest) = some (j, rest)) ∧
    (∀ (xs : List Json) (rest : List Char), (stringifyElems xs).length + 1 ≤ fuel →
      parseElems fuel (stringifyElems xs ++ ']' :: rest) = some (xs, rest)) ∧
    (∀ (fs : List (String × Json)) (rest : List Char), (stringifyFields fs).length + 1 ≤ fuel →
      parseFields fuel (stringifyFields fs ++ '\x7d' :: rest) = some (fs, rest)) := by
  induction fuel with
  | zero =>
    refine ⟨fun j rest h => ?_, fun xs rest h => absurd h (by omega),
      fun fs rest h => absurd h (by omega)⟩
    obtain ⟨tl, hj | hj | hj⟩ := stringifyVal_head j <;> rw [hj] at h <;> simp at h
  | succ f ihf =>
    obtain ⟨ihV, ihE, ihF⟩ := ihf
    refine ⟨fun j rest hlen => ?_, fun xs rest hlen => ?_, fun fs rest hlen => ?_⟩
    · -- one value
      cases j with
      | str s =>
        rw [stringifyVal, strLit, List.cons_append, List.append_assoc, List.singleton_append]
        rw [parseVal, if_pos rfl, parseStringBody_round]
        rfl
      | arr xs =>
        rw [stringifyVal] at hlen
        have hlen' : (stringifyElems xs).length + 1 ≤ f := by
          simp only [List.length_cons, List.length_append, List.length_singleton] at hlen
          omega
        rw [stringifyVal, List.cons_append, List.append_assoc, List.singleton_append]
        rw [parseVal, if_neg (by decide), if_pos rfl]
        rw [ihE xs rest hlen']
        rfl
      | obj fs =>
        rw [stringifyVal] at hlen
        have hlen' : (stringifyFields fs).length + 1 ≤ f := by
          simp only [List.length_cons, List.length_append, List.length_singleton] at hlen
          omega
        rw [stringifyVal, List.cons_append, List.append_assoc, List.singleton_append]
        rw [parseVal, if_neg (by decide), if_neg (by decide), if_pos rfl]
        rw [ihF fs rest hlen']
        rfl
    · -- array elements
      cases xs with
      | nil =>
        rw [stringifyElems, List.nil_append]
        rw [parseElems, if_pos rfl]
      | cons x xs =>
        obtain ⟨tl, hx3⟩ := stringifyVal_head x
        have hxcons : ∃ c : Char, ¬ c = ']' ∧ stringifyVal x = c :: tl := by
          rcases hx3 with h | h | h
          exacts [⟨'"', by decide, h⟩, ⟨'[', by decide, h⟩, ⟨'\x7b', by decide, h⟩]
        obtain ⟨c, hcne, hx⟩ := hxcons
        cases xs with
        | nil =>
          rw [stringifyElems] at hlen
          have hlx : (stringifyVal x).length ≤ f := by omega
          rw [stringifyElems]
          rw [hx, List.cons_append, parseElems_cons f c _ hcne, ← List.cons_append, ← hx]
          rw [ihV x (']' :: rest) hlx]
          rfl
        | cons y ys =>
          rw [stringifyElems] at hlen
          simp only [List.length_append, List.length_cons] at hlen
          have hlx : (stringifyVal x).length ≤ f := by omega
          have hle : (stringifyElems (y :: ys)).length + 1 ≤ f := by omega
          rw [stringifyElems, List.append_assoc, List.cons_append]
          rw [hx, List.cons_append, parseElems_cons f c _ hcne, ← List.cons_append, ← hx]
          rw [ihV x (',' :: (stringifyElems (y :: ys) ++ ']' :: rest)) hlx]
          simp only [Option.some_bind]
          rw [ihE (y :: ys) rest hle]
          rfl
    · -- object fields
      cases fs with
      | nil =>
        rw [stringifyFields, List.nil_append]
        rw [parseFields, if_pos rfl]
      | cons kv fs =>
        obtain ⟨k, v⟩ := kv
        cases fs with
        | nil =>
          rw [stringifyFields] at hlen
          have hlv : (stringifyVal v).length ≤ f := by
            simp only [List.length_append, List.length_cons] at hlen
            omega
          rw [stringifyFields]
          rw [show (strLit k.data ++ ':' :: stringifyVal v) ++ '\x7d' :: rest
              = '"' :: (escapeString k.data
                  ++ '"' :: (':' :: (stringifyVal v ++ '\x7d' :: rest))) from by
            simp [strLit]]
          rw [parseFields, if_neg (by decide), if_pos rfl]
          rw [parseStringBody_round]
          simp only [Option.some_bind]
          rw [ihV v ('\x7d' :: rest) hlv]
          rfl
        | cons kv2 fs2 =>
          rw [stringifyFields] at hlen
          simp only [List.length_append, List.length_cons] at hlen
          have hlv : (stringifyVal v).length ≤ f := by omega
          have hlf : (stringifyFields (kv2 :: fs2)).length + 1 ≤ f := by omega
          rw [stringifyFields]
          rw [show (strLit k.data ++ ':' :: stringifyVal v
                  ++ ',' :: stringifyFields (kv2 :: fs2)) ++ '\x7d' :: rest
              = '"' :: (escapeString k.data
                  ++ '"' :: (':' :: (stringifyVal v
                    ++ ',' :: (stringifyFields (kv2 :: fs2) ++ '\x7d' :: rest)))) from by
            simp [strLit]]
          rw [parseFields, if_neg (by decide), if_pos rfl]
          rw [parseStringBody_round]
          simp only [Option.some_bind]
          rw [ihV v (',' :: (stringifyFields (kv2 :: fs2) ++ '\x7d' :: rest)) hlv]
          simp only [Option.some_bind]
          rw [ihF (kv2 :: fs2) rest hlf]
          rfl

/-- `JSON.parse ∘ JSON.stringify` is the identity on JSON values. -/
theorem parseJson_stringify (j : Json) :
    parseJson (String.mk (stringifyVal j)) = some j := by
  have h := (parse_round_master ((stringifyVal j).length + 1)).1 j [] (by omega)
  rw [List.append_nil] at h
  unfold parseJson
  rw [show (String.mk (stringifyVal j)).length = (stringifyVal j).length from rfl]
  rw [show (String.mk (stringifyVal j)).data = stringifyVal j from rfl]
  rw [h]

/-- String-to-string objects decode back. -/
theorem asStringPairs_round (outs : List (String × String)) :
    Json.asStringPairs (.obj (outs.map fun kv => (kv.1, Json.str kv.2))) = some outs := by
  induction outs with
  | nil => rfl
  | cons kv t ih =>
    show ((kv.1, Json.str kv.2) :: (t.map fun kv => (kv.1, Json.str kv.2))).mapM
        (fun kv => (kv.2.asString).map fun s => (kv.1, s)) = some (kv :: t)
    rw [List.mapM_cons]
    rw [show ((t.map fun kv => (kv.1, Json.str kv.2)).mapM
        fun kv => (kv.2.asString).map fun s => (kv.1, s)) = some t from ih]
    rfl

/-- Dependency bundles decode back from their JSON value. -/
theorem decodeDependency_round (d : RuntimeDependency) :
    decodeDependency d.toJson = some d := by
  unfold RuntimeDependency.toJson decodeDependency
  simp [Json.asString, asStringPairs_round]

/-- Dependency lists decode back from their JSON value. -/
theorem decodeDependencies_round (deps : List RuntimeDependency) :
    decodeDependencies (dependenciesJson deps) = some deps := by
  induction deps with
  | nil => rfl
  | cons d t ih =>
    show (d.toJson :: t.map RuntimeDependency.toJson).mapM decodeDependency = some (d :: t)
    rw [List.mapM_cons, decodeDependency_round]
    rw [show ((t.map RuntimeDependency.toJson).mapM decodeDependency) = some t from ih]
    rfl

/-- The `GARDEN_DEPENDENCIES` variable of a prepared runtime context is
the serialized dependency list. -/
theorem prepareRuntimeContext_lookup (module : Module)
    (projectVars : List (String × String))
    (buildDeps serviceDeps taskDeps testDeps : List DependencyEntity) :
    envLookup
        (prepareRuntimeContext module projectVars buildDeps serviceDeps taskDeps testDeps).envVars
        "GARDEN_DEPENDENCIES"
      = some (String.mk (stringifyVal (dependenciesJson
          (prepareRuntimeContext module projectVars buildDeps serviceDeps taskDeps
            testDeps).dependencies))) := by
  unfold prepareRuntimeContext envLookup
  simp [List.find?]

/-- C2: for every runtime context produced by `prepareRuntimeContext`
with a non-empty dependency set, parsing the `GARDEN_DEPENDENCIES`
environment variable as JSON yields exactly the JSON value of the
context's `dependencies` sequence, and decoding that value returns the
sequence itself — an exact structural round-trip. -/
theorem prepareRuntimeContext_dependencies_roundtrip (module : Module)
    (projectVars : List (String × String))
    (buildDeps serviceDeps taskDeps testDeps : List DependencyEntity)
    (_hne : (prepareRuntimeContext module projectVars buildDeps serviceDeps taskDeps
      testDeps).dependencies ≠ []) :
    ∃ raw : String,
      envLookup
          (prepareRuntimeContext module projectVars buildDeps serviceDeps taskDeps
            testDeps).envVars "GARDEN_DEPENDENCIES" = some raw ∧
      parseJson raw = some (dependenciesJson
        (prepareRuntimeContext module projectVars buildDeps serviceDeps taskDeps
          testDeps).dependencies) ∧
      (parseJson raw).bind decodeDependencies
        = some (prepareRuntimeContext module projectVars buildDeps serviceDeps taskDeps
            testDeps).dependencies := by
  refine ⟨String.mk (stringifyVal (dependenciesJson
      (prepareRuntimeContext module projectVars buildDeps serviceDeps taskDeps
        testDeps).dependencies)),
    prepareRuntimeContext_lookup module projectVars buildDeps serviceDeps taskDeps testDeps,
    parseJson_stringify _, ?_⟩
  rw [parseJson_stringify]
  simp only [Option.some_bind]
  exact decodeDependencies_round _

/-- Witness for C2 at a context with one service dependency. -/
theorem prepareRuntimeContext_dependencies_roundtrip_witness :
    (prepareRuntimeContext exModuleWeb [] [] [exServiceEntity] [] []).dependencies ≠ [] ∧
      ∃ raw : String,
        envLookup (prepareRuntimeContext exModuleWeb [] [] [exServiceEntity] [] []).envVars
            "GARDEN_DEPENDENCIES" = some raw ∧
        parseJson raw = some (dependenciesJson
          (prepareRuntimeContext exModuleWeb [] [] [exServiceEntity] [] []).dependencies) ∧
        (parseJson raw).bind decodeDependencies
          = some (prepareRuntimeContext exModuleWeb [] [] [exServiceEntity] [] []).dependencies :=
  ⟨by simp [prepareRuntimeContext],
    prepareRuntimeContext_dependencies_roundtrip exModuleWeb [] [] [exServiceEntity] [] []
      (by simp [prepareRuntimeContext])⟩

end Garden
